import Mathlib

/-!
# Photokiosk Cart — Order Calculator verification

Shallow embedding of the pricing / order-placement logic of
`src/pages/Cart.tsx` (the single source file of the repository), together
with proofs of the testable properties of the specification.

Modelling conventions:
* JavaScript `number` values are modelled as rationals (`ℚ`); the quantity
  field, always used as an integer, is modelled as `ℤ`.
* `Number.prototype.toFixed(2)` (followed by the unary `+` that converts the
  string back to a number, as in `+(x).toFixed(2)`) is modelled on `ℚ` by
  `jsToFixed2`: the integer `n` minimising the distance of `n / 100` to the
  argument, ties resolved to the larger `n`, as the ECMAScript algorithm
  prescribes.
* `Array.from(new Set(xs))` is modelled by `jsSetDedup`, which keeps the
  first occurrence of each element in order, as a JavaScript `Set` does.
* `Math.random()` is modelled as an arbitrary rational argument `r` with
  `0 ≤ r < 1`.
-/

/-- `const TAX_RATE = 0.0825` (Cart.tsx line 5). -/
def TAX_RATE : ℚ := 825 / 10000

/-- `const SHIPPING = 5.99` (Cart.tsx line 6). -/
def SHIPPING : ℚ := 599 / 100

/-- One entry of `printSizes`: `{ label: string; price: number }`. -/
structure PrintSize where
  label : String
  price : ℚ
deriving DecidableEq, Repr

/-- The `CartItem` interface of Cart.tsx (lines 8–16). -/
structure CartItem where
  id : String
  name : String
  thumb : String
  editInfo : Option String
  printSizes : List PrintSize
  selectedSize : String
  quantity : ℤ
deriving DecidableEq, Repr

/-- `getItemPrice` (Cart.tsx lines 18–21):
`item.printSizes.find(s => s.label === item.selectedSize)`, then
`size ? size.price * item.quantity : 0`. -/
def getItemPrice (item : CartItem) : ℚ :=
  match item.printSizes.find? (fun s => s.label == item.selectedSize) with
  | some size => size.price * (item.quantity : ℚ)
  | none => 0

/-- `+(x).toFixed(2)` on a JavaScript number, modelled on `ℚ`: the ECMAScript
`toFixed` picks the integer `n` with `n / 100` closest to the argument and,
between two equally close integers, the larger one, i.e. `⌊100·x + 1/2⌋`. -/
def jsToFixed2 (q : ℚ) : ℚ := (⌊q * 100 + 1 / 2⌋ : ℚ) / 100

/-- The `round2` of the specification: round-half-away-from-zero to two decimal
places (spec §4.1 and glossary). Stated from the words of the spec, to be compared
with `jsToFixed2`, which is taken from the code. -/
def round2 (q : ℚ) : ℚ :=
  if 0 ≤ q then (⌊q * 100 + 1 / 2⌋ : ℚ) / 100
  else -((⌊-q * 100 + 1 / 2⌋ : ℚ) / 100)

/-- `cartItems.reduce((sum, item) => sum + getItemPrice(item), 0)`
(Cart.tsx line 35). -/
def subtotalOf (items : List CartItem) : ℚ :=
  items.foldl (fun sum item => sum + getItemPrice item) 0

/-- The derived `OrderSummary` record of spec §3. -/
structure OrderSummary where
  subtotal : ℚ
  tax : ℚ
  shipping : ℚ
  total : ℚ
deriving DecidableEq, Repr

/-- The aggregate computation of Cart.tsx lines 35–37 and 167:
`subtotal`, `tax = +(subtotal * TAX_RATE).toFixed(2)`,
`shipping = cartItems.length > 0 ? SHIPPING : 0`, and
`total = +(subtotal + tax + (cartItems.length > 0 ? SHIPPING : 0)).toFixed(2)`. -/
def summarize (items : List CartItem) : OrderSummary :=
  let subtotal := subtotalOf items
  let tax := jsToFixed2 (subtotal * TAX_RATE)
  let shipping := if items.length > 0 then SHIPPING else 0
  let total := jsToFixed2 (subtotal + tax + shipping)
  ⟨subtotal, tax, shipping, total⟩

/-- `randomOrderNumber` (Cart.tsx lines 27–29):
`Math.floor(100000 + Math.random() * 900000)`, with the `Math.random()`
result passed in as `r`. -/
def randomOrderNumber (r : ℚ) : ℤ := ⌊(100000 : ℚ) + r * 900000⌋

/-- `item.id.split("-")[0]` (Cart.tsx line 43): the segment of the id before
its first dash (the whole id when it contains none). -/
def sessionOf (id : String) : String := ⟨id.data.takeWhile (fun c => c != '-')⟩

/-- `Array.from(new Set(xs))` for a JavaScript `Set`, which iterates in
insertion order: keep the first occurrence of each element. -/
def jsSetDedup {α : Type} [DecidableEq α] : List α → List α
  | [] => []
  | a :: l => a :: jsSetDedup (l.filter (fun b => decide (b ≠ a)))
termination_by l => l.length
decreasing_by
  simp_wf
  exact Nat.lt_succ_of_le (List.length_filter_le _ _)

/-- `Array.from(new Set(cartItems.map(item => item.id.split("-")[0])))`
(Cart.tsx line 43). -/
def sessionIdsOf (items : List CartItem) : List String :=
  jsSetDedup (items.map (fun item => sessionOf item.id))

/-- `stored ? JSON.parse(stored) : []` (Cart.tsx lines 44–45): the persisted
value under the `"orderedSessions"` key, decoded; `none` models an absent
(or empty, hence falsy) stored value. -/
def persistedOf : Option (List String) → List String
  | none => []
  | some l => l

/-- The session-merge of `handlePlaceOrder` (Cart.tsx lines 43–47):
`Array.from(new Set([...orderedSessions, ...sessionIds]))`, the new value
written back under `"orderedSessions"`. -/
def placeOrder (items : List CartItem) (orderedSessions : List String) :
    List String :=
  jsSetDedup (orderedSessions ++ sessionIdsOf items)

/-- The quantity-decrement handler (Cart.tsx line 132):
`Math.max(1, item.quantity - 1)`. -/
def decrementQuantity (q : ℤ) : ℤ := max 1 (q - 1)

/-- A literal fixture from spec §8: one item with size
`{label: "5x7", price: 4.00}` and `quantity: 2`. -/
def fixtureItem : CartItem :=
  { id := "sess-1"
    name := "photo"
    thumb := "thumb"
    editInfo := none
    printSizes := [⟨"5x7", 4⟩]
    selectedSize := "5x7"
    quantity := 2 }

/-- A malformed item: negative quantity, matched size. -/
def badItem : CartItem :=
  { id := "sess-2"
    name := "photo"
    thumb := "thumb"
    editInfo := none
    printSizes := [⟨"5x7", 4⟩]
    selectedSize := "5x7"
    quantity := -1 }

example : getItemPrice fixtureItem = 8 := by
  norm_num [getItemPrice, fixtureItem]

example : summarize [] = ⟨0, 0, 0, 0⟩ := by
  norm_num [summarize, subtotalOf, jsToFixed2, TAX_RATE, SHIPPING]

example : summarize [fixtureItem] = ⟨8, 66/100, 599/100, 1465/100⟩ := by
  norm_num [summarize, subtotalOf, getItemPrice, fixtureItem, jsToFixed2,
    TAX_RATE, SHIPPING]

example : jsSetDedup ["a", "b", "a"] = ["a", "b"] := by
  simp [jsSetDedup]

example : sessionOf "sess-1" = "sess" := by decide

section JsSetDedupLemmas

variable {α : Type} [DecidableEq α]

theorem mem_jsSetDedup {x : α} : ∀ {l : List α}, x ∈ jsSetDedup l ↔ x ∈ l
  | [] => by rw [jsSetDedup]
  | a :: l => by
    rw [jsSetDedup]
    by_cases hxa : x = a
    · subst hxa
      simp
    · simp only [List.mem_cons, hxa, false_or]
      rw [mem_jsSetDedup, List.mem_filter]
      simp [hxa]
termination_by l => l.length
decreasing_by
  simp_wf
  exact Nat.lt_succ_of_le (List.length_filter_le _ _)

theorem nodup_jsSetDedup : ∀ (l : List α), (jsSetDedup l).Nodup
  | [] => by rw [jsSetDedup]; exact List.nodup_nil
  | a :: l => by
    rw [jsSetDedup]
    refine List.nodup_cons.mpr ⟨fun hmem => ?_, nodup_jsSetDedup _⟩
    rw [mem_jsSetDedup, List.mem_filter] at hmem
    simp at hmem
termination_by l => l.length
decreasing_by
  simp_wf
  exact Nat.lt_succ_of_le (List.length_filter_le _ _)

theorem jsSetDedup_eq_self_of_nodup : ∀ {l : List α}, l.Nodup → jsSetDedup l = l
  | [], _ => by rw [jsSetDedup]
  | a :: l, h => by
    rw [jsSetDedup]
    rcases List.nodup_cons.mp h with ⟨ha, hl⟩
    have hfilter : l.filter (fun b => decide (b ≠ a)) = l := by
      refine List.filter_eq_self.mpr fun b hb => ?_
      simp only [decide_eq_true_eq]
      exact fun hba => ha (hba ▸ hb)
    rw [hfilter, jsSetDedup_eq_self_of_nodup hl]

theorem toFinset_jsSetDedup (l : List α) :
    (jsSetDedup l).toFinset = l.toFinset := by
  ext x
  simp [List.mem_toFinset, mem_jsSetDedup]

theorem jsSetDedup_append_of_subset :
    ∀ {l s : List α}, l.Nodup → (∀ x ∈ s, x ∈ l) → jsSetDedup (l ++ s) = l
  | [], s, _, hs => by
    have : s = [] := List.eq_nil_iff_forall_not_mem.mpr fun x hx =>
      by simpa using hs x hx
    simp [this, jsSetDedup]
  | a :: l, s, h, hs => by
    rcases List.nodup_cons.mp h with ⟨ha, hl⟩
    rw [List.cons_append, jsSetDedup, List.filter_append]
    have hlf : l.filter (fun b => decide (b ≠ a)) = l := by
      refine List.filter_eq_self.mpr fun b hb => ?_
      simp only [decide_eq_true_eq]
      exact fun hba => ha (hba ▸ hb)
    have hsf : ∀ x ∈ s.filter (fun b => decide (b ≠ a)), x ∈ l := by
      intro x hx
      rcases List.mem_filter.mp hx with ⟨hxs, hxa⟩
      simp only [decide_eq_true_eq] at hxa
      rcases List.mem_cons.mp (hs x hxs) with h1 | h1
      · exact absurd h1 hxa
      · exact h1
    rw [hlf, jsSetDedup_append_of_subset hl hsf]

end JsSetDedupLemmas

/-- With labels unique within the item (spec §3 invariant), `find?` locates
exactly the entry carrying the selected label. -/
theorem find_label_eq :
    ∀ {l : List PrintSize} {sel : String} {e : PrintSize},
      (l.map PrintSize.label).Nodup → e ∈ l → e.label = sel →
      l.find? (fun s => s.label == sel) = some e
  | [], _, _, _, he, _ => absurd he (List.not_mem_nil _)
  | a :: l, sel, e, hnd, he, hl => by
    rw [List.map_cons, List.nodup_cons] at hnd
    rcases hnd with ⟨hal, hltl⟩
    rcases List.mem_cons.mp he with rfl | he
    · exact List.find?_cons_of_pos l (by simpa using hl)
    · have hae : a.label ≠ sel := fun ha => by
        have : e.label ∈ List.map PrintSize.label l :=
          List.mem_map_of_mem PrintSize.label he
        rw [hl, ← ha] at this
        exact hal this
      rw [List.find?_cons_of_neg l (by simpa using hae)]
      exact find_label_eq hltl he hl

/-- When no entry carries the selected label, `find?` comes up empty. -/
theorem find_label_none {l : List PrintSize} {sel : String}
    (h : ∀ e ∈ l, e.label ≠ sel) :
    l.find? (fun s => s.label == sel) = none := by
  refine List.find?_eq_none.mpr fun e he => ?_
  simpa using h e he

/-- A line price is nonnegative under the quantity and price invariants. -/
theorem getItemPrice_nonneg (item : CartItem)
    (hq : 0 ≤ item.quantity) (hp : ∀ e ∈ item.printSizes, 0 ≤ e.price) :
    0 ≤ getItemPrice item := by
  unfold getItemPrice
  cases hfind : item.printSizes.find? (fun s => s.label == item.selectedSize) with
  | none => exact le_refl 0
  | some size =>
    have hmem : size ∈ item.printSizes := List.mem_of_find?_eq_some hfind
    have : (0 : ℚ) ≤ (item.quantity : ℚ) := by exact_mod_cast hq
    exact mul_nonneg (hp size hmem) this

/-- The running `reduce` sum stays nonnegative when each line price is. -/
theorem subtotalOf_nonneg (items : List CartItem)
    (h : ∀ it ∈ items, 0 ≤ getItemPrice it) : 0 ≤ subtotalOf items := by
  suffices hgen : ∀ (l : List CartItem) (init : ℚ), 0 ≤ init →
      (∀ it ∈ l, 0 ≤ getItemPrice it) →
      0 ≤ l.foldl (fun sum item => sum + getItemPrice item) init by
    exact hgen items 0 le_rfl h
  intro l
  induction l with
  | nil => intro init h0 _; exact h0
  | cons a l ih =>
    intro init h0 hall
    rw [List.foldl_cons]
    exact ih _ (add_nonneg h0 (hall a (List.mem_cons_self a l)))
      fun it hit => hall it (List.mem_cons_of_mem a hit)

/-- `jsToFixed2` keeps nonnegative values nonnegative. -/
theorem jsToFixed2_nonneg {q : ℚ} (h : 0 ≤ q) : 0 ≤ jsToFixed2 q := by
  unfold jsToFixed2
  have : (0 : ℤ) ≤ ⌊q * 100 + 1 / 2⌋ := by
    rw [Int.le_floor]
    push_cast
    nlinarith
  positivity

/-- On nonnegative arguments the ECMAScript tie-to-larger rounding of
`toFixed(2)` agrees with the round-half-away-from-zero `round2` of the spec. -/
theorem jsToFixed2_eq_round2 {q : ℚ} (h : 0 ≤ q) : jsToFixed2 q = round2 q := by
  rw [round2, if_pos h, jsToFixed2]

/-- C1: a cart item whose `selectedSize` equals the label of an entry of its
`printSizes` (labels being unique within the item) is priced at the price of
that entry times its quantity; an item whose `selectedSize` matches no label is
priced `0`, with no error raised. -/
theorem getItemPrice_spec (item : CartItem)
    (hnd : (item.printSizes.map PrintSize.label).Nodup) :
    (∀ e ∈ item.printSizes, e.label = item.selectedSize →
        getItemPrice item = e.price * (item.quantity : ℚ))
    ∧ ((∀ e ∈ item.printSizes, e.label ≠ item.selectedSize) →
        getItemPrice item = 0) := by
  constructor
  · intro e he hl
    unfold getItemPrice
    rw [find_label_eq hnd he hl]
  · intro h
    unfold getItemPrice
    rw [find_label_none h]

/-- Witness for C1 at the literal fixture of the spec: the `5x7`/price-4 item with
quantity 2 is priced `4 × 2`. -/
theorem getItemPrice_spec_witness :
    getItemPrice fixtureItem = (4 : ℚ) * ((2 : ℤ) : ℚ) :=
  (getItemPrice_spec fixtureItem (by simp [fixtureItem])).1
    ⟨"5x7", 4⟩ (by simp [fixtureItem]) rfl

/-- C2: under the §3 invariants (nonnegative quantity and prices),
`tax = round2(subtotal × 0.0825)` and
`total = round2(subtotal + tax + shipping)` with the already-rounded tax
added into the total (two-step rounding), `round2` being
round-half-away-from-zero to two decimals; in particular the literal fixture
of one `{label: "5x7", price: 4.00}`, quantity-2 item gives subtotal `8.00`,
tax `0.66`, shipping `5.99` and total `14.65`. -/
theorem summarize_rounding (items : List CartItem)
    (h : ∀ it ∈ items, 0 ≤ it.quantity ∧ ∀ e ∈ it.printSizes, 0 ≤ e.price) :
    ((summarize items).tax = round2 ((summarize items).subtotal * TAX_RATE)
      ∧ (summarize items).total =
          round2 ((summarize items).subtotal + (summarize items).tax
            + (summarize items).shipping))
    ∧ summarize [fixtureItem] = ⟨8, 66 / 100, 599 / 100, 1465 / 100⟩ := by
  have hsub : 0 ≤ subtotalOf items :=
    subtotalOf_nonneg items fun it hit =>
      getItemPrice_nonneg it (h it hit).1 (h it hit).2
  have h1 : 0 ≤ subtotalOf items * TAX_RATE :=
    mul_nonneg hsub (by norm_num [TAX_RATE])
  have htaxnn : 0 ≤ jsToFixed2 (subtotalOf items * TAX_RATE) :=
    jsToFixed2_nonneg h1
  have hship : 0 ≤ (if items.length > 0 then SHIPPING else 0 : ℚ) := by
    split
    · norm_num [SHIPPING]
    · exact le_rfl
  refine ⟨⟨jsToFixed2_eq_round2 h1, ?_⟩, ?_⟩
  · exact jsToFixed2_eq_round2 (add_nonneg (add_nonneg hsub htaxnn) hship)
  · norm_num [summarize, subtotalOf, getItemPrice, fixtureItem, jsToFixed2,
      TAX_RATE, SHIPPING]

/-- Witness for C2: the fixture cart evaluates to the literal numbers of the spec. -/
theorem summarize_rounding_witness :
    summarize [fixtureItem] = ⟨8, 66 / 100, 599 / 100, 1465 / 100⟩ :=
  (summarize_rounding [fixtureItem] (by norm_num [fixtureItem])).2

/-- C3: `placeOrder` returns exactly the union, as a set, of the persisted
session ids with the distinct first-dash-segment prefixes of the item
ids. -/
theorem placeOrder_union (items : List CartItem) (stored : List String) :
    (placeOrder items stored).toFinset =
      stored.toFinset ∪ (items.map (fun it => sessionOf it.id)).toFinset := by
  unfold placeOrder sessionIdsOf
  rw [toFinset_jsSetDedup, List.toFinset_append, toFinset_jsSetDedup]

/-- C4: applying `placeOrder` a second time with the same items to the list
it returned leaves that list unchanged (so in particular set-equal), and the
returned list carries no duplicate entries. -/
theorem placeOrder_idempotent (items : List CartItem) (stored : List String) :
    placeOrder items (placeOrder items stored) = placeOrder items stored
    ∧ (placeOrder items stored).Nodup := by
  constructor
  · unfold placeOrder
    refine jsSetDedup_append_of_subset (nodup_jsSetDedup _) fun x hx => ?_
    rw [mem_jsSetDedup]
    exact List.mem_append_right _ hx
  · exact nodup_jsSetDedup _

/-- C5: for every non-empty cart the shipping component is exactly `5.99`,
and for the empty cart it is `0`. -/
theorem shipping_fee (items : List CartItem) :
    (items ≠ [] → (summarize items).shipping = 599 / 100)
    ∧ (summarize []).shipping = 0 := by
  constructor
  · intro h
    have hpos : 0 < items.length := List.length_pos.mpr h
    show (if items.length > 0 then SHIPPING else 0) = 599 / 100
    rw [if_pos hpos, SHIPPING]
  · rfl

/-- Witness for C5 at a concrete one-item cart and the empty cart. -/
theorem shipping_fee_witness :
    (summarize [fixtureItem]).shipping = 599 / 100
    ∧ (summarize []).shipping = 0 :=
  ⟨(shipping_fee [fixtureItem]).1 (List.cons_ne_nil _ _), (shipping_fee []).2⟩

/-- C6: the empty cart summarizes to all-zero subtotal, tax, shipping and
total. -/
theorem summarize_empty : summarize [] = ⟨0, 0, 0, 0⟩ := by
  norm_num [summarize, subtotalOf, jsToFixed2, TAX_RATE, SHIPPING]

/-- C7: for every value `r` the random source can produce (`0 ≤ r < 1`),
`randomOrderNumber` lands in the closed range `[100000, 999999]`. -/
theorem randomOrderNumber_range (r : ℚ) (h0 : 0 ≤ r) (h1 : r < 1) :
    100000 ≤ randomOrderNumber r ∧ randomOrderNumber r ≤ 999999 := by
  unfold randomOrderNumber
  constructor
  · rw [Int.le_floor]
    push_cast
    nlinarith
  · have hlt : ⌊(100000 : ℚ) + r * 900000⌋ < 1000000 := by
      rw [Int.floor_lt]
      push_cast
      nlinarith
    omega

/-- Witness for C7 at `r = 1/2`. -/
theorem randomOrderNumber_range_witness :
    100000 ≤ randomOrderNumber (1 / 2) ∧ randomOrderNumber (1 / 2) ≤ 999999 :=
  randomOrderNumber_range (1 / 2) (by norm_num) (by norm_num)

/-- C8 counterexample: the malformed item with matched size `5x7` (price 4)
and negative quantity `-1` is priced `-4`, which is neither zero nor any
default: a negative quantity does not degrade to a zero or default value. -/
theorem badItem_price_not_zero :
    getItemPrice badItem = -4 ∧ getItemPrice badItem ≠ 0 := by
  norm_num [getItemPrice, badItem]

/-- C8 amended: no operation throws (each is a total function of its input);
an unmatched `selectedSize` degrades silently to price `0`; a negative
quantity, however, is not zeroed or clamped — with a matched size the price
is `price × quantity`, which may be negative, as the `badItem` evaluation
shows. -/
theorem order_calculator_totality (item : CartItem)
    (hnd : (item.printSizes.map PrintSize.label).Nodup) :
    ((∀ e ∈ item.printSizes, e.label ≠ item.selectedSize) →
        getItemPrice item = 0)
    ∧ (∀ e ∈ item.printSizes, e.label = item.selectedSize →
        getItemPrice item = e.price * (item.quantity : ℚ))
    ∧ getItemPrice badItem = -4 := by
  refine ⟨fun h => ?_, fun e he hl => ?_, ?_⟩
  · unfold getItemPrice
    rw [find_label_none h]
  · unfold getItemPrice
    rw [find_label_eq hnd he hl]
  · norm_num [getItemPrice, badItem]

/-- Witness for the amended C8 at the malformed item. -/
theorem order_calculator_totality_witness :
    getItemPrice badItem = -4 :=
  (order_calculator_totality badItem (by simp [badItem])).2.2

/-- C9: decrementing a quantity `q ≥ 1` yields `max 1 (q − 1)` and never
drives the quantity below `1`. -/
theorem decrement_clamped (q : ℤ) (_h : 1 ≤ q) :
    decrementQuantity q = max 1 (q - 1) ∧ 1 ≤ decrementQuantity q :=
  ⟨rfl, le_max_left 1 (q - 1)⟩

/-- Witness for C9 at `q = 1`: the decrement stays at `1`. -/
theorem decrement_clamped_witness :
    decrementQuantity 1 = max 1 (1 - 1) ∧ 1 ≤ decrementQuantity 1 :=
  decrement_clamped 1 (le_refl 1)

/-- C10: with no persisted value under `"orderedSessions"`, `placeOrder`
starts from the empty set, and the list it produces is exactly the list of
distinct session-id prefixes of the items — in particular its set is the set
of those prefixes. -/
theorem placeOrder_empty_store (items : List CartItem) :
    placeOrder items (persistedOf none) = sessionIdsOf items
    ∧ (placeOrder items (persistedOf none)).toFinset =
        (items.map (fun it => sessionOf it.id)).toFinset := by
  have h1 : placeOrder items (persistedOf none) = sessionIdsOf items := by
    show jsSetDedup ([] ++ sessionIdsOf items) = sessionIdsOf items
    rw [List.nil_append]
    exact jsSetDedup_eq_self_of_nodup (nodup_jsSetDedup _)
  refine ⟨h1, ?_⟩
  rw [h1]
  unfold sessionIdsOf
  exact toFinset_jsSetDedup _
